import Mathlib

/-!
# Verification of the row-validation engine of QMPxDB-SiemensCheck

This file is a shallow embedding, in Lean 4, of the row validation and
classification engine of the repository: the quality-check rules of
`server.js` (`checkVollstaendig`, `checkPflichtfelder`, `checkMasspruefung`,
the per-row classifier and the run statistics), the `QualityChecker` class
(`checkFertPruefhinweis`, `checkPflichtfelder`, `checkMasswerte`,
`findColumnByHeader`, `checkQuality`'s per-row combination), the numeric
helpers of `utils.js` (`toNumber`), and the Excel column-letter helpers
(`getColumnLetter`, `getColumnIndex`).

Modelling conventions:
* Cell values are modelled as `String`; a null/absent/empty cell is the
  empty string `""` (JavaScript treats null, undefined and `""` alike in
  every code path embedded here: `!v`, `String(v || '')`, `parseFloat`
  of a missing value all collapse to the empty-string behaviour).
* A row is a `List String` indexed from 0; `row.getD i ""` models
  `row.getCell(i + 1).value` (a cell beyond the stored row is empty).
* JavaScript numbers are modelled as exact rationals `ℚ`.  Every number
  reaching a comparison in the embedded code is produced by a single
  decimal parse, so no floating-point rounding is observable at the
  magnitudes compared (`=0`, `<0`, `>10000`, `≤0`).
* JavaScript string primitives (`split`, `trim`, `toLowerCase`,
  `includes`, first-occurrence `replace`) are re-implemented structurally
  over `List Char` so that all definitions evaluate inside the kernel.
  `\s` of the source regex and the whitespace trimmed by `trim` are
  modelled by `Char.isWhitespace` (space, tab, CR, LF); the exotic
  Unicode space code points accepted by JavaScript do not occur in any
  input considered here.
-/

/-! ## JavaScript string primitives -/

/-- `String.prototype.split` with a one-character separator, on char lists.
The result is always nonempty; splitting the empty list gives `[[]]`,
matching `"".split("/") == [""]`. -/
def splitOnChar (sep : Char) : List Char → List (List Char)
  | [] => [[]]
  | c :: t =>
    match splitOnChar sep t with
    | [] => [[]]
    | x :: xs => if c = sep then [] :: x :: xs else (c :: x) :: xs

/-- `s.split(sep)` for a one-character separator. -/
def jsSplit (s : String) (sep : Char) : List String :=
  (splitOnChar sep s.data).map fun l => ⟨l⟩

/-- Leading and trailing whitespace removal on char lists. -/
def trimChars (l : List Char) : List Char :=
  ((l.dropWhile Char.isWhitespace).reverse.dropWhile Char.isWhitespace).reverse

/-- `s.trim()`. -/
def jsTrim (s : String) : String := ⟨trimChars s.data⟩

/-- `s.toLowerCase()`; `Char.toLower` lowers the ASCII range and leaves
other characters (`Ä`, `Ö`, …) unchanged, which agrees with JavaScript on
every header name occurring in the sources' search terms. -/
def jsToLower (s : String) : String := ⟨s.data.map Char.toLower⟩

/-- `s.includes(sub)`: substring containment. -/
def jsIncludes (s sub : String) : Bool := decide (sub.data <:+: s.data)

/-- `s.replace(',', '.')`: a string-pattern `replace` in JavaScript
replaces only the first occurrence. -/
def replaceFirstComma : List Char → List Char
  | [] => []
  | c :: t => if c = ',' then '.' :: t else c :: replaceFirstComma t

/-! ## JavaScript number parsing -/

/-- Decimal digits to a natural number. -/
def digitsToNat (l : List Char) : Nat :=
  l.foldl (fun a c => a * 10 + (c.toNat - 48)) 0

/-- `parseFloat(s)`: skip leading whitespace, optional sign, longest
prefix `digits [ '.' digits ] [ ('e'|'E') [sign] digits ]`; `none` models
`NaN` (no digits at all).  The special input `"Infinity"` (which
JavaScript maps to `Infinity`) is not modelled and yields `none`; it
occurs in no code path considered here.  The resulting rational is built
with a single `mkRat`. -/
def jsParseFloat (s : String) : Option ℚ :=
  let cs := s.data.dropWhile Char.isWhitespace
  let neg : Bool := match cs with
    | '-' :: _ => true
    | _ => false
  let cs1 := match cs with
    | '-' :: t => t
    | '+' :: t => t
    | _ => cs
  let intPart := cs1.takeWhile Char.isDigit
  let rest1 := cs1.dropWhile Char.isDigit
  let fracPart := match rest1 with
    | '.' :: t => t.takeWhile Char.isDigit
    | _ => []
  let rest2 := match rest1 with
    | '.' :: t => t.dropWhile Char.isDigit
    | _ => rest1
  if intPart.isEmpty && fracPart.isEmpty then none
  else
    let mantissa : Nat := digitsToNat (intPart ++ fracPart)
    let scale : Nat := fracPart.length
    let expPart : Int := match rest2 with
      | e :: t =>
        if e = 'e' || e = 'E' then
          let esign : Bool := match t with
            | '-' :: _ => true
            | _ => false
          let t2 := match t with
            | '-' :: u => u
            | '+' :: u => u
            | _ => t
          let ed := t2.takeWhile Char.isDigit
          if ed.isEmpty then 0
          else if esign then -(digitsToNat ed : Int) else (digitsToNat ed : Int)
        else 0
      | [] => 0
    let sgn : Int := if neg then -1 else 1
    let e : Int := expPart - scale
    some (if 0 ≤ e then mkRat (sgn * mantissa * ((10 : Nat) ^ e.toNat : Nat)) 1
          else mkRat (sgn * mantissa) ((10 : Nat) ^ (-e).toNat))

/-- `parseFloat(v) || 0`: `NaN` becomes `0` (a parsed `0` or `-0` is
already `0`). -/
def jsParseFloatOr0 (s : String) : ℚ := (jsParseFloat s).getD 0

/-- `utils.js` `toNumber`: null/empty gives null, otherwise the first
`,` is replaced by `.` and the result parsed with `parseFloat`; a
non-finite parse gives null (our parser never produces an infinity, and
`NaN` is already `none`). -/
def toNumber (v : String) : Option ℚ :=
  if v = "" then none
  else jsParseFloat ⟨replaceFirstComma v.data⟩

/-! ## The text-measurement regex

`server.js` / `QualityChecker` test the material short text against
`/\d{1,4}[\s×xX*\/]{1,3}\d{1,4}/`.  The matcher below is parametrised by
the separator class so that the source's class (`isSepChar`) and the
spec's literal enumeration (`specSepChar`, used for comparison in claim
C5) share one implementation. -/

/-- The separator class `[\s×xX*/]` of the source regex. -/
def isSepChar (c : Char) : Bool :=
  c.isWhitespace || c = '×' || c = 'x' || c = 'X' || c = '*' || c = '/'

/-- Following the spec's words (for comparison): separators exactly
space, `×`, `x`, `X`, `*`, `/` — note the absence of tab and the other
whitespace characters matched by `\s`. -/
def specSepChar (c : Char) : Bool :=
  c = ' ' || c = '×' || c = 'x' || c = 'X' || c = '*' || c = '/'

/-- Consume exactly `n` characters satisfying `p`, returning the rest. -/
def takeExact (p : Char → Bool) : Nat → List Char → Option (List Char)
  | 0, l => some l
  | _ + 1, [] => none
  | n + 1, c :: t => if p c then takeExact p n t else none

/-- Does a match of `digits{1,4} sep{1,3} digits{1,4}` start at the head
of `l`? -/
def matchesAt (sep : Char → Bool) (l : List Char) : Bool :=
  (List.range 4).any fun a =>
    (List.range 3).any fun b =>
      (List.range 4).any fun c =>
        (((takeExact Char.isDigit (a + 1) l).bind
            (takeExact sep (b + 1))).bind
            (takeExact Char.isDigit (c + 1))).isSome

/-- Does a match start at any position (regex `test`)? -/
def hasTextMeasurementAux (sep : Char → Bool) : List Char → Bool
  | [] => false
  | c :: t => matchesAt sep (c :: t) || hasTextMeasurementAux sep t

/-- `pattern.test(txt)` for the source regex. -/
def hasTextMeasurement (s : String) : Bool :=
  hasTextMeasurementAux isSepChar s.data

/-- The same test with the spec's literal separator enumeration. -/
def specHasTextMeasurement (s : String) : Bool :=
  hasTextMeasurementAux specSepChar s.data

/-- Declarative characterisation of a textual measurement: some substring
decomposes as one to four digits, then one to three separator characters,
then one to four digits. -/
def TextualMeasurementWith (sep : Char → Bool) (l : List Char) : Prop :=
  ∃ pre d1 sp d2 post : List Char,
    l = pre ++ d1 ++ sp ++ d2 ++ post ∧
    1 ≤ d1.length ∧ d1.length ≤ 4 ∧
    1 ≤ sp.length ∧ sp.length ≤ 3 ∧
    1 ≤ d2.length ∧ d2.length ≤ 4 ∧
    (∀ c ∈ d1, c.isDigit = true) ∧
    (∀ c ∈ sp, sep c = true) ∧
    (∀ c ∈ d2, c.isDigit = true)

/-- A textual measurement in the sense of the source regex. -/
def TextualMeasurement (s : String) : Prop :=
  TextualMeasurementWith isSepChar s.data

/-! ## Excel column-letter helpers (`server.js`) -/

/-- The `while (index > 0)` loop of `getColumnLetter`, with explicit fuel:
each iteration strictly decreases `index`, so `index` itself is enough
fuel, and the structural recursion evaluates inside the kernel. -/
def getColumnLetterGo : Nat → Nat → List Char → List Char
  | 0, _, acc => acc
  | fuel + 1, index, acc =>
    if index = 0 then acc
    else getColumnLetterGo fuel ((index - 1) / 26)
          (Char.ofNat (65 + (index - 1) % 26) :: acc)

/-- `getColumnLetter`: 1-based column number to Excel letters
(`1 ↦ "A"`, `26 ↦ "Z"`, `27 ↦ "AA"`, `0 ↦ ""`). -/
def getColumnLetter (index : Nat) : String :=
  ⟨getColumnLetterGo index index []⟩

/-- `getColumnIndex`: Excel letters to 1-based column number, via
`index * 26 + (charCode - 64)`. -/
def getColumnIndex (letter : String) : Nat :=
  letter.data.foldl (fun index c => index * 26 + (c.toNat - 64)) 0

/-! ## Shared rule data -/

/-- Allowed values for segment 1 of `Fert./Prüfhinweis`. -/
def pos1Values : List String := ["OHNE", "1", "2", "3"]

/-- Allowed values for segment 2. -/
def pos2Values : List String := ["N", "3.2", "3.1", "2.2", "2.1"]

/-- Allowed values for segment 3. -/
def pos3Values : List String := ["N", "CL1", "CL2", "CL3"]

/-- Allowed values for segment 4. -/
def pos4Values : List String := ["N", "J"]

/-- Allowed values for segment 5. -/
def pos5Values : List String := ["N", "A1", "A2", "A3", "A5", "A+"]

/-- The mandatory 0-based column indices: B–J, N, R–W. -/
def relevantIndices : List Nat := [1, 2, 3, 4, 5, 6, 7, 8, 9, 13, 17, 18, 19, 20, 21, 22]

namespace Server

/-- `server.js` `checkVollstaendig`: `0` means valid, `1` means error.
Empty/absent value fails; the value is split on `/`, each part trimmed;
anything but exactly five parts fails (the five-element pattern below is
the `teile.length !== 5` guard); otherwise each part is checked against
its positional allowed set. -/
def checkVollstaendig (hinweis : String) : Nat :=
  if hinweis = "" then 1
  else
    match (jsSplit hinweis '/').map jsTrim with
    | [t1, t2, t3, t4, t5] =>
      if pos1Values.contains t1 && pos2Values.contains t2 && pos3Values.contains t3 &&
         pos4Values.contains t4 && pos5Values.contains t5 then 0 else 1
    | _ => 1

/-- `server.js` `checkPflichtfelder`: returns `1` as soon as some
relevant index below the header count holds an empty (after trim) cell,
else `0`; the early `return 1` of the loop is the `any`. -/
def checkPflichtfelder (row headers : List String) : Nat :=
  if relevantIndices.any (fun index =>
      decide (index < headers.length) && (jsTrim (row.getD index "") == "")) then 1 else 0

/-- The column map built in `runQualityCheck` from the header row by
case-insensitive substring matching; an `if`/`else if` chain, later
matching headers overwriting earlier ones for the same key. -/
structure ColMap where
  fertPruefhinweis : Option Nat := none
  laenge : Option Nat := none
  breite : Option Nat := none
  hoehe : Option Nat := none
  materialkurztext : Option Nat := none
deriving Repr, DecidableEq

/-- Build the column map from the headers. -/
def buildColMap (headers : List String) : ColMap :=
  (List.range headers.length).foldl
    (fun m index =>
      let header := headers.getD index ""
      if header = "" then m
      else
        let headerStr := jsToLower header
        if jsIncludes headerStr "fert" || jsIncludes headerStr "prüfhinweis" then
          { m with fertPruefhinweis := some index }
        else if jsIncludes headerStr "länge" then { m with laenge := some index }
        else if jsIncludes headerStr "breite" then { m with breite := some index }
        else if jsIncludes headerStr "höhe" then { m with hoehe := some index }
        else if jsIncludes headerStr "materialkurztext" ||
                jsIncludes headerStr "material-kurztext" then
          { m with materialkurztext := some index }
        else m)
    {}

/-- `server.js` `checkMasspruefung`: parse the three dimension cells with
`parseFloat(v) || 0` (absent column means `0`), read the material short
text, and if all three dimensions are `0` require a textual measurement;
`0` means valid, `1` means error.  (The `try`/`catch` of the source
cannot fire in this model: all the operations are total.) -/
def checkMasspruefung (row headers : List String) : Nat :=
  let colMap := buildColMap headers
  let l : ℚ := match colMap.laenge with
    | some i => jsParseFloatOr0 (row.getD i "")
    | none => 0
  let b : ℚ := match colMap.breite with
    | some i => jsParseFloatOr0 (row.getD i "")
    | none => 0
  let h : ℚ := match colMap.hoehe with
    | some i => jsParseFloatOr0 (row.getD i "")
    | none => 0
  let txt : String := match colMap.materialkurztext with
    | some i => row.getD i ""
    | none => ""
  if l = 0 ∧ b = 0 ∧ h = 0 then (if hasTextMeasurement txt then 0 else 1) else 0

/-- The four per-row error flags of `runQualityCheck`. -/
structure RowResult where
  fertPruefhinweisError : Nat
  pflichtfelderError : Nat
  massError : Nat
  gesamtError : Nat
deriving Repr, DecidableEq

/-- One iteration of the row loop of `runQualityCheck`: the three rule
errors and `gesamtError = Math.max` of them. -/
def classifyRow (row headers : List String) : RowResult :=
  let colMap := buildColMap headers
  let fertPruefhinweisError := match colMap.fertPruefhinweis with
    | some i => checkVollstaendig (row.getD i "")
    | none => 0
  let pflichtfelderError := checkPflichtfelder row headers
  let massError := checkMasspruefung row headers
  { fertPruefhinweisError := fertPruefhinweisError,
    pflichtfelderError := pflichtfelderError,
    massError := massError,
    gesamtError := max fertPruefhinweisError (max pflichtfelderError massError) }

/-- `row.hasValues`: some cell is non-empty. -/
def rowHasValues (row : List String) : Bool := row.any (fun v => v != "")

/-- The row loop of `runQualityCheck`, accumulating
`(totalRows, validRows)`: rows without values are skipped, every other
row increments the total and, when `gesamtError == 0`, the valid count. -/
def processRows (rows : List (List String)) (headers : List String) : Nat × Nat :=
  rows.foldl
    (fun acc row =>
      if rowHasValues row then
        (acc.1 + 1,
         acc.2 + if (classifyRow row headers).gesamtError = 0 then 1 else 0)
      else acc)
    (0, 0)

/-- The `stats` object returned by `runQualityCheck`:
`{ total, valid, invalid: total - valid }` (exact integer arithmetic). -/
structure Stats where
  total : Nat
  valid : Nat
  invalid : Int
deriving Repr, DecidableEq

/-- Run the quality check row loop and produce the `stats`. -/
def runStats (rows : List (List String)) (headers : List String) : Stats :=
  let p := processRows rows headers
  { total := p.1, valid := p.2, invalid := (p.1 : Int) - (p.2 : Int) }

/-- The value of `count / totalRows * 100` as computed by the summary
sheet; a zero total gives `NaN` (modelled `none`: in every use the
numerator is then also `0`, and `0/0` is `NaN` in JavaScript). -/
def fehlerquoteVal (count total : Nat) : Option ℚ :=
  if total = 0 then none else some (mkRat (count * 100) total)

/-- `x.toFixed(2)` for a (possibly `NaN`) number: `NaN` prints `"NaN"`,
otherwise round half-up to two decimals (all values formatted by this
code are nonnegative). -/
def jsToFixed2 (q : Option ℚ) : String :=
  match q with
  | none => "NaN"
  | some q =>
    let r : Int := Int.fdiv (200 * q.num + (q.den : Int)) (2 * (q.den : Int))
    let a := r.natAbs
    (if r < 0 then "-" else "") ++ toString (a / 100) ++ "." ++
      (if a % 100 < 10 then "0" else "") ++ toString (a % 100)

/-- One percentage cell of the summary sheet:
`` `${(count / totalRows * 100).toFixed(2)}%` ``. -/
def fehlerquote (count total : Nat) : String :=
  jsToFixed2 (fehlerquoteVal count total) ++ "%"

/-- The `summaryData` rows of the summary sheet of `runQualityCheck`. -/
def summaryData (totalRows validRows : Nat) (results : List RowResult) :
    List (List String) :=
  [["", "Fehleranzahl", "Fehlerquote"],
   ["Gesamt(" ++ toString totalRows ++ ")", toString (totalRows - validRows),
    fehlerquote (totalRows - validRows) totalRows],
   ["Vollständigkeit_Pflichtfeld",
    toString (results.countP (fun r => r.pflichtfelderError == 1)),
    fehlerquote (results.countP (fun r => r.pflichtfelderError == 1)) totalRows],
   ["Vollständigkeit_Fert./Prüfhinweis",
    toString (results.countP (fun r => r.fertPruefhinweisError == 1)),
    fehlerquote (results.countP (fun r => r.fertPruefhinweisError == 1)) totalRows],
   ["Gültigkeit_Maß",
    toString (results.countP (fun r => r.massError == 1)),
    fehlerquote (results.countP (fun r => r.massError == 1)) totalRows]]

end Server

namespace QC

/-- A rule verdict of the `QualityChecker` class:
`{ valid: boolean, error: string | null }`. -/
structure RuleVerdict where
  valid : Bool
  error : Option String
deriving Repr, DecidableEq

/-- `QualityChecker.checkFertPruefhinweis`: empty/absent fails with
`'Fehlender Wert'`; not exactly five `/`-separated (trimmed) parts fails
with `'Nicht genau 5 Teile'`; otherwise each part is checked against its
positional allowed set, failing with
`'Ungültige Werte in einem oder mehreren Teilen'`. -/
def checkFertPruefhinweis (hinweis : String) : RuleVerdict :=
  if hinweis = "" then { valid := false, error := some "Fehlender Wert" }
  else
    match (jsSplit hinweis '/').map jsTrim with
    | [t1, t2, t3, t4, t5] =>
      if pos1Values.contains t1 && pos2Values.contains t2 && pos3Values.contains t3 &&
         pos4Values.contains t4 && pos5Values.contains t5 then
        { valid := true, error := none }
      else { valid := false, error := some "Ungültige Werte in einem oder mehreren Teilen" }
    | _ => { valid := false, error := some "Nicht genau 5 Teile" }

/-- The label of a missing mandatory field:
`` `${this.getColumnLetter(index)} (${headers[index] || 'Unbekannt'})` ``
(note: `getColumnLetter` expects a 1-based column number but is handed
the 0-based `index`). -/
def pflichtLabel (headers : List String) (index : Nat) : String :=
  getColumnLetter index ++ " (" ++
    (if headers.getD index "" = "" then "Unbekannt" else headers.getD index "") ++ ")"

/-- The `missingFields` list collected by
`QualityChecker.checkPflichtfelder`: every relevant index below the
header count whose cell is empty after trim, in order. -/
def missingFields (row headers : List String) : List String :=
  relevantIndices.filterMap fun index =>
    if index < headers.length then
      if jsTrim (row.getD index "") = "" then some (pflichtLabel headers index) else none
    else none

/-- The verdict of `QualityChecker.checkPflichtfelder`
(`valid`, `error`, `missingCount`). -/
structure PflichtVerdict where
  valid : Bool
  error : Option String
  missingCount : Nat
deriving Repr, DecidableEq

/-- `QualityChecker.checkPflichtfelder`. -/
def checkPflichtfelder (row headers : List String) : PflichtVerdict :=
  let mf := missingFields row headers
  { valid := mf.isEmpty,
    error := if mf.isEmpty then none
             else some ("Fehlende Pflichtfelder: " ++ String.intercalate ", " mf),
    missingCount := mf.length }

/-- `QualityChecker.findColumnByHeader`: the first index whose non-empty
header contains (case-insensitively) one of the search terms; the
source's `-1` is modelled as `none`. -/
def findColumnByHeader (headers : List String) (searchTerms : List String) : Option Nat :=
  (List.range headers.length).find? fun i =>
    let h := headers.getD i ""
    h != "" && searchTerms.any fun term => jsIncludes (jsToLower h) term

/-- The value-level core of `QualityChecker.checkMasswerte`, after the
cells have been parsed: the source's sequence of early returns
(all-zero without textual measurement; any negative; any above 10000)
written as one `if` chain — when all three dimensions are zero neither
of the later tests can fire, so falling through the first test is the
same as taking the chain. -/
def masswerteVerdict (l b h : ℚ) (txt : String) : RuleVerdict :=
  let hasText := hasTextMeasurement txt
  if l = 0 ∧ b = 0 ∧ h = 0 ∧ hasText = false then
    { valid := false, error := some "Alle Maße sind 0, aber kein Textmaß gefunden" }
  else if l < 0 ∨ b < 0 ∨ h < 0 then
    { valid := false, error := some "Negative Maßwerte gefunden" }
  else if l > 10000 ∨ b > 10000 ∨ h > 10000 then
    { valid := false, error := some "Extrem große Maßwerte (über 10000)" }
  else { valid := true, error := none }

/-- `QualityChecker.checkMasswerte`: resolve the dimension and material
columns by header search, parse the three dimensions with
`parseFloat(v) || 0` (missing column means `0`), read the material short
text, and apply the value-level checks.  (The source's `try`/`catch`
cannot fire: every operation is total.) -/
def checkMasswerte (row headers : List String) : RuleVerdict :=
  let laengeCol := findColumnByHeader headers ["länge", "length"]
  let breiteCol := findColumnByHeader headers ["breite", "width"]
  let hoeheCol := findColumnByHeader headers ["höhe", "height"]
  let materialCol := findColumnByHeader headers ["materialkurztext", "material-kurztext", "material"]
  let l : ℚ := match laengeCol with
    | some i => jsParseFloatOr0 (row.getD i "")
    | none => 0
  let b : ℚ := match breiteCol with
    | some i => jsParseFloatOr0 (row.getD i "")
    | none => 0
  let h : ℚ := match hoeheCol with
    | some i => jsParseFloatOr0 (row.getD i "")
    | none => 0
  let txt : String := match materialCol with
    | some i => row.getD i ""
    | none => ""
  masswerteVerdict l b h txt

/-- The per-row combination of `QualityChecker.checkQuality`. -/
structure RowVerdict where
  fertPruefhinweis : RuleVerdict
  pflichtfelder : PflichtVerdict
  masswerte : RuleVerdict
  isValid : Bool
  errors : List String
deriving Repr, DecidableEq

/-- One iteration of the row loop of `QualityChecker.checkQuality`: all
three rules are evaluated, `isValid` is their conjunction, and `errors`
collects the non-null reasons (`[...].filter(Boolean)`). -/
def evaluateRow (row headers : List String) : RowVerdict :=
  let fertPruefhinweisCol :=
    findColumnByHeader headers ["fert", "prüfhinweis", "fertigungs", "pruefhinweis"]
  let fr := match fertPruefhinweisCol with
    | some i => checkFertPruefhinweis (row.getD i "")
    | none => { valid := true, error := none }
  let pr := checkPflichtfelder row headers
  let mr := checkMasswerte row headers
  { fertPruefhinweis := fr, pflichtfelder := pr, masswerte := mr,
    isValid := fr.valid && pr.valid && mr.valid,
    errors := [fr.error, pr.error, mr.error].filterMap id }

end QC

/-! ## The weight rule (spec-modelled)

`completeness-checker.js` is required by one of the server variants and
documented in the README ("Gewicht prüfen: Werte ≤ 0 werden orange
markiert"), but the file itself is not part of the sources at hand. -/

/-- Modelled from the spec: the weight check of the missing
`completeness-checker.js` — "If a weight field is configured and present:
fail with reason 'non-positive weight' when its parsed numeric value is
≤ 0"; an unconfigured/absent field passes, and numeric parsing accepts
both decimal separators (the `toNumber` helper of `utils.js`). -/
def checkWeight (weight : Option String) : QC.RuleVerdict :=
  match weight with
  | none => { valid := true, error := none }
  | some w =>
    match toNumber w with
    | none => { valid := true, error := none }
    | some v =>
      if v ≤ 0 then { valid := false, error := some "non-positive weight" }
      else { valid := true, error := none }

/-- Modelled from the spec: the measurement evaluation with a configured
weight field — the dimension verdict and the weight verdict are computed
independently and all failure reasons are collected. -/
def measurementReasons (l b h : ℚ) (txt : String) (weight : Option String) :
    List String :=
  [(QC.masswerteVerdict l b h txt).error, (checkWeight weight).error].filterMap id

/-! ## Fixtures used by concrete theorems -/

/-- A header row resolving the three dimension columns and the material
short text column at indices 0–3. -/
def headersM : List String := ["Länge", "Breite", "Höhe", "Materialkurztext"]

/-- A 23-column header row (columns A–W). -/
def headers23 : List String :=
  ["hA", "hB", "hC", "hD", "hE", "hF", "hG", "hH", "hI", "hJ", "hK", "hL",
   "hM", "hN", "hO", "hP", "hQ", "hR", "hS", "hT", "hU", "hV", "hW"]

/-- A 23-cell row in which exactly the mandatory position 1 (column B)
is empty among the mandatory positions. -/
def row23 : List String :=
  ["", "", "v", "v", "v", "v", "v", "v", "v", "v", "", "", "", "v", "", "",
   "", "v", "v", "v", "v", "v", "v"]

/-! ## Characterisation of the text-measurement matcher -/

/-- `takeExact p n` succeeds exactly on lists starting with `n`
characters satisfying `p`. -/
theorem takeExact_some_iff (p : Char → Bool) :
    ∀ (n : Nat) (l r : List Char),
      takeExact p n l = some r ↔
        ∃ pre, pre.length = n ∧ (∀ c ∈ pre, p c = true) ∧ l = pre ++ r := by
  intro n
  induction n with
  | zero =>
    intro l r
    constructor
    · intro h
      exact ⟨[], rfl, by simp, by simpa [takeExact] using h⟩
    · rintro ⟨pre, hlen, -, rfl⟩
      rw [List.length_eq_zero] at hlen
      subst hlen
      simp [takeExact]
  | succ n ih =>
    intro l r
    cases l with
    | nil =>
      constructor
      · intro h
        simp [takeExact] at h
      · rintro ⟨pre, hlen, -, habs⟩
        have : pre.length = 0 := by
          have := congrArg List.length habs
          simp at this
          omega
        omega
    | cons c t =>
      constructor
      · intro h
        rw [takeExact] at h
        by_cases hp : p c = true
        · rw [if_pos hp] at h
          obtain ⟨pre, hlen, hall, rfl⟩ := (ih t r).mp h
          exact ⟨c :: pre, by simp [hlen], by simpa [hp] using hall, rfl⟩
        · rw [if_neg hp] at h
          exact absurd h (by simp)
      · rintro ⟨pre, hlen, hall, heq⟩
        cases pre with
        | nil => simp at hlen
        | cons c' pre' =>
          simp only [List.cons_append, List.cons.injEq] at heq
          obtain ⟨rfl, rfl⟩ := heq
          rw [takeExact, if_pos (hall c (by simp))]
          exact (ih _ _).mpr ⟨pre', by simpa using hlen, fun x hx => hall x (by simp [hx]), rfl⟩

/-- The head matcher finds exactly the decompositions
`digits{1,4} ++ sep{1,3} ++ digits{1,4} ++ rest`. -/
theorem matchesAt_iff (sep : Char → Bool) (l : List Char) :
    matchesAt sep l = true ↔
      ∃ d1 sp d2 rest : List Char,
        l = d1 ++ sp ++ d2 ++ rest ∧
        1 ≤ d1.length ∧ d1.length ≤ 4 ∧ 1 ≤ sp.length ∧ sp.length ≤ 3 ∧
        1 ≤ d2.length ∧ d2.length ≤ 4 ∧
        (∀ c ∈ d1, c.isDigit = true) ∧ (∀ c ∈ sp, sep c = true) ∧
        (∀ c ∈ d2, c.isDigit = true) := by
  rw [matchesAt]
  simp only [List.any_eq_true, List.mem_range]
  constructor
  · rintro ⟨a, ha, b, hb, c, hc, h⟩
    rw [Option.isSome_iff_exists] at h
    obtain ⟨rest, h⟩ := h
    rw [Option.bind_eq_some] at h
    obtain ⟨r2, h2, h3⟩ := h
    rw [Option.bind_eq_some] at h2
    obtain ⟨r1, h1, h2⟩ := h2
    obtain ⟨d1, hd1len, hd1, rfl⟩ := (takeExact_some_iff _ _ _ _).mp h1
    obtain ⟨sp, hsplen, hsp, rfl⟩ := (takeExact_some_iff _ _ _ _).mp h2
    obtain ⟨d2, hd2len, hd2, rfl⟩ := (takeExact_some_iff _ _ _ _).mp h3
    exact ⟨d1, sp, d2, rest, by simp, by omega, by omega, by omega, by omega,
      by omega, by omega, hd1, hsp, hd2⟩
  · rintro ⟨d1, sp, d2, rest, rfl, h1, h2, h3, h4, h5, h6, hd1, hsp, hd2⟩
    refine ⟨d1.length - 1, by omega, sp.length - 1, by omega, d2.length - 1, by omega, ?_⟩
    rw [Option.isSome_iff_exists]
    refine ⟨rest, ?_⟩
    rw [Option.bind_eq_some]
    refine ⟨d2 ++ rest, ?_, ?_⟩
    · rw [Option.bind_eq_some]
      refine ⟨sp ++ (d2 ++ rest), ?_, ?_⟩
      · exact (takeExact_some_iff _ _ _ _).mpr ⟨d1, by omega, hd1, by simp⟩
      · exact (takeExact_some_iff _ _ _ _).mpr ⟨sp, by omega, hsp, rfl⟩
    · exact (takeExact_some_iff _ _ _ _).mpr ⟨d2, by omega, hd2, rfl⟩

/-- The scanning matcher agrees with the declarative characterisation. -/
theorem hasTextMeasurementAux_iff (sep : Char → Bool) (l : List Char) :
    hasTextMeasurementAux sep l = true ↔ TextualMeasurementWith sep l := by
  induction l with
  | nil =>
    rw [hasTextMeasurementAux]
    constructor
    · intro h
      simp at h
    · rintro ⟨pre, d1, sp, d2, post, habs, h1, -⟩
      have := congrArg List.length habs
      simp at this
      omega
  | cons c t ih =>
    rw [hasTextMeasurementAux, Bool.or_eq_true, matchesAt_iff, ih]
    constructor
    · rintro (⟨d1, sp, d2, rest, heq, h1, h2, h3, h4, h5, h6, hd1, hsp, hd2⟩ |
              ⟨pre, d1, sp, d2, post, heq, h1, h2, h3, h4, h5, h6, hd1, hsp, hd2⟩)
      · exact ⟨[], d1, sp, d2, rest, by simpa using heq, h1, h2, h3, h4, h5, h6, hd1, hsp, hd2⟩
      · exact ⟨c :: pre, d1, sp, d2, post, by simp [heq], h1, h2, h3, h4, h5, h6, hd1, hsp, hd2⟩
    · rintro ⟨pre, d1, sp, d2, post, heq, h1, h2, h3, h4, h5, h6, hd1, hsp, hd2⟩
      cases pre with
      | nil =>
        exact Or.inl ⟨d1, sp, d2, post, by simpa using heq, h1, h2, h3, h4, h5, h6, hd1, hsp, hd2⟩
      | cons c' pre' =>
        simp only [List.cons_append, List.cons.injEq] at heq
        exact Or.inr ⟨pre', d1, sp, d2, post, heq.2, h1, h2, h3, h4, h5, h6, hd1, hsp, hd2⟩

/-- The source regex test agrees with `TextualMeasurement`. -/
theorem hasTextMeasurement_iff (s : String) :
    hasTextMeasurement s = true ↔ TextualMeasurement s :=
  hasTextMeasurementAux_iff isSepChar s.data

/-! ## Column-letter round-trip machinery -/

/-- The loop leaves the accumulator untouched when `index = 0`. -/
theorem getColumnLetterGo_zero (fuel : Nat) (acc : List Char) :
    getColumnLetterGo fuel 0 acc = acc := by
  cases fuel <;> rfl

/-- Any sufficient amount of fuel computes the same letters. -/
theorem getColumnLetterGo_fuel :
    ∀ (f1 f2 index : Nat) (acc : List Char), index ≤ f1 → index ≤ f2 →
      getColumnLetterGo f1 index acc = getColumnLetterGo f2 index acc := by
  intro f1
  induction f1 with
  | zero =>
    intro f2 index acc h1 _
    have h0 : index = 0 := by omega
    subst h0
    rw [getColumnLetterGo_zero, getColumnLetterGo_zero]
  | succ f ih =>
    intro f2 index acc h1 h2
    cases index with
    | zero => rw [getColumnLetterGo_zero, getColumnLetterGo_zero]
    | succ m =>
      cases f2 with
      | zero => omega
      | succ g =>
        rw [getColumnLetterGo, getColumnLetterGo]
        simp only [Nat.succ_ne_zero, if_false, Nat.add_sub_cancel]
        have hd : m / 26 ≤ m := Nat.div_le_self m 26
        exact ih g (m / 26) _ (by omega) (by omega)

/-- The accumulator is only ever appended to. -/
theorem getColumnLetterGo_acc :
    ∀ (f index : Nat) (acc : List Char), index ≤ f →
      getColumnLetterGo f index acc = getColumnLetterGo f index [] ++ acc := by
  intro f
  induction f with
  | zero =>
    intro index acc h
    have h0 : index = 0 := by omega
    subst h0
    rw [getColumnLetterGo_zero, getColumnLetterGo_zero]
    simp
  | succ f ih =>
    intro index acc h
    cases index with
    | zero =>
      rw [getColumnLetterGo_zero, getColumnLetterGo_zero]
      simp
    | succ m =>
      rw [getColumnLetterGo, getColumnLetterGo]
      simp only [Nat.succ_ne_zero, if_false, Nat.add_sub_cancel]
      have hd : m / 26 ≤ m := Nat.div_le_self m 26
      rw [ih (m / 26) _ (by omega), ih (m / 26) [Char.ofNat (65 + m % 26)] (by omega)]
      simp

/-- Unfolding of the letters of `n + 1`: letters of `(n + 1 - 1) / 26`
followed by the character for `(n + 1 - 1) % 26`. -/
theorem getColumnLetter_succ (n : Nat) :
    getColumnLetterGo (n + 1) (n + 1) [] =
      getColumnLetterGo (n / 26) (n / 26) [] ++ [Char.ofNat (65 + n % 26)] := by
  rw [getColumnLetterGo]
  simp only [Nat.succ_ne_zero, if_false, Nat.add_sub_cancel]
  have hd : n / 26 ≤ n := Nat.div_le_self n 26
  rw [getColumnLetterGo_fuel n (n / 26) (n / 26) _ (by omega) (le_refl _)]
  rw [getColumnLetterGo_acc (n / 26) (n / 26) _ (le_refl _)]

/-- The character codes produced by the loop round-trip through
`Char.ofNat`. -/
theorem char_toNat_65 (k : Nat) (hk : k < 26) :
    (Char.ofNat (65 + k)).toNat = 65 + k := by
  interval_cases k <;> rfl

/-- `getColumnIndex` is a left inverse of `getColumnLetter`. -/
theorem getColumnIndex_getColumnLetter (n : Nat) :
    getColumnIndex (getColumnLetter n) = n := by
  induction n using Nat.strong_induction_on with
  | _ n ih =>
    match n with
    | 0 => rfl
    | m + 1 =>
      have hdata : (getColumnLetter (m + 1)).data = getColumnLetterGo (m + 1) (m + 1) [] := rfl
      rw [getColumnIndex, hdata, getColumnLetter_succ, List.foldl_append]
      have h1 : (getColumnLetterGo (m / 26) (m / 26) []).foldl
          (fun index c => index * 26 + (c.toNat - 64)) 0 = m / 26 := by
        have hlt : m / 26 < m + 1 := by
          have := Nat.div_le_self m 26
          omega
        exact ih (m / 26) hlt
      rw [h1]
      simp only [List.foldl_cons, List.foldl_nil]
      rw [char_toNat_65 (m % 26) (Nat.mod_lt m (by norm_num))]
      omega

/-- Appending one in-range character to the letters corresponds to
`index * 26 + value` on numbers. -/
theorem getColumnLetter_mul_add (a : Nat) (c : Char)
    (h1 : 65 ≤ c.toNat) (h2 : c.toNat ≤ 90) :
    getColumnLetterGo (a * 26 + (c.toNat - 64)) (a * 26 + (c.toNat - 64)) [] =
      getColumnLetterGo a a [] ++ [c] := by
  have hm : a * 26 + (c.toNat - 64) = (a * 26 + (c.toNat - 65)) + 1 := by omega
  rw [hm, getColumnLetter_succ]
  have hdiv : (a * 26 + (c.toNat - 65)) / 26 = a := by omega
  have hmod : (a * 26 + (c.toNat - 65)) % 26 = c.toNat - 65 := by omega
  rw [hdiv, hmod]
  have hc : 65 + (c.toNat - 65) = c.toNat := by omega
  rw [hc, Char.ofNat_toNat]

/-- Folding the index over a list of in-range characters appends them to
the letters. -/
theorem getColumnLetter_foldl :
    ∀ (l : List Char) (a : Nat), (∀ c ∈ l, 65 ≤ c.toNat ∧ c.toNat ≤ 90) →
      getColumnLetterGo (l.foldl (fun index c => index * 26 + (c.toNat - 64)) a)
          (l.foldl (fun index c => index * 26 + (c.toNat - 64)) a) [] =
        getColumnLetterGo a a [] ++ l := by
  intro l
  induction l with
  | nil =>
    intro a _
    simp
  | cons c t ih =>
    intro a hc
    simp only [List.foldl_cons]
    rw [ih _ (fun x hx => hc x (List.mem_cons_of_mem c hx))]
    rw [getColumnLetter_mul_add a c (hc c (List.mem_cons_self c t)).1
        (hc c (List.mem_cons_self c t)).2]
    simp

/-- `getColumnLetter` is a left inverse of `getColumnIndex` on strings of
capital letters. -/
theorem getColumnLetter_getColumnIndex (s : String)
    (h : ∀ c ∈ s.data, 65 ≤ c.toNat ∧ c.toNat ≤ 90) :
    getColumnLetter (getColumnIndex s) = s := by
  have key : getColumnLetterGo (getColumnIndex s) (getColumnIndex s) [] = s.data := by
    have h0 := getColumnLetter_foldl s.data 0 h
    simpa [getColumnIndex] using h0
  show (⟨getColumnLetterGo (getColumnIndex s) (getColumnIndex s) []⟩ : String) = s
  rw [key]

/-! ## List helper lemmas -/

/-- Reading a replicated empty-string padding always gives `""`. -/
theorem getD_replicate_empty :
    ∀ (k i : Nat), (List.replicate k ("" : String)).getD i "" = "" := by
  intro k
  induction k with
  | zero => intro i; cases i <;> rfl
  | succ k ih =>
    intro i
    cases i with
    | zero => rfl
    | succ j => simp [List.replicate]

/-- Padding a row with empty cells does not change any cell read. -/
theorem getD_append_replicate (row : List String) (k : Nat) :
    ∀ i : Nat, (row ++ List.replicate k "").getD i "" = row.getD i "" := by
  induction row with
  | nil =>
    intro i
    simp [getD_replicate_empty k i]
  | cons r rs ih =>
    intro i
    cases i with
    | zero => rfl
    | succ j => simpa using ih j

/-! ## Measurement verdict case lemmas -/

/-- With all three dimensions zero, the verdict is decided by the textual
measurement alone. -/
theorem masswerteVerdict_allzero (l b h : ℚ) (txt : String)
    (hl : l = 0) (hb : b = 0) (hh : h = 0) :
    (QC.masswerteVerdict l b h txt).valid = hasTextMeasurement txt
    ∧ (hasTextMeasurement txt = false →
        (QC.masswerteVerdict l b h txt).error =
          some "Alle Maße sind 0, aber kein Textmaß gefunden") := by
  subst hl hb hh
  rw [QC.masswerteVerdict]
  cases htx : hasTextMeasurement txt <;> (simp [htx]; try norm_num)

/-- With some dimension nonzero, validity is exactly the absence of a
negative and of an implausibly large dimension; the text field plays no
role. -/
theorem masswerteVerdict_nonzero (l b h : ℚ) (txt : String)
    (hnz : ¬(l = 0 ∧ b = 0 ∧ h = 0)) :
    ((QC.masswerteVerdict l b h txt).valid = true ↔
      ¬(l < 0 ∨ b < 0 ∨ h < 0) ∧ ¬(l > 10000 ∨ b > 10000 ∨ h > 10000)) := by
  rw [QC.masswerteVerdict]
  have h1 : ¬(l = 0 ∧ b = 0 ∧ h = 0 ∧ hasTextMeasurement txt = false) := by
    intro hcon
    exact hnz ⟨hcon.1, hcon.2.1, hcon.2.2.1⟩
  rw [if_neg h1]
  by_cases h2 : l < 0 ∨ b < 0 ∨ h < 0
  · rw [if_pos h2]
    constructor
    · intro hh
      exact absurd hh (by simp)
    · intro hr
      exact absurd h2 hr.1
  · rw [if_neg h2]
    by_cases h3 : l > 10000 ∨ b > 10000 ∨ h > 10000
    · rw [if_pos h3]
      constructor
      · intro hh
        exact absurd hh (by simp)
      · intro hr
        exact absurd h3 hr.2
    · rw [if_neg h3]
      simp [h2, h3]

/-- Any negative dimension yields the negative-dimension verdict,
whatever the text field holds. -/
theorem masswerteVerdict_neg (l b h : ℚ) (txt : String)
    (hneg : l < 0 ∨ b < 0 ∨ h < 0) :
    QC.masswerteVerdict l b h txt =
      { valid := false, error := some "Negative Maßwerte gefunden" } := by
  rw [QC.masswerteVerdict]
  have h1 : ¬(l = 0 ∧ b = 0 ∧ h = 0 ∧ hasTextMeasurement txt = false) := by
    rintro ⟨rfl, rfl, rfl, -⟩
    rcases hneg with h | h | h <;> exact absurd h (lt_irrefl 0)
  rw [if_neg h1, if_pos hneg]

/-- A dimension above the bound yields the implausible-maximum verdict,
provided no dimension is negative. -/
theorem masswerteVerdict_large (l b h : ℚ) (txt : String)
    (hlarge : l > 10000 ∨ b > 10000 ∨ h > 10000)
    (hneg : ¬(l < 0 ∨ b < 0 ∨ h < 0)) :
    QC.masswerteVerdict l b h txt =
      { valid := false, error := some "Extrem große Maßwerte (über 10000)" } := by
  rw [QC.masswerteVerdict]
  have h1 : ¬(l = 0 ∧ b = 0 ∧ h = 0 ∧ hasTextMeasurement txt = false) := by
    rintro ⟨rfl, rfl, rfl, -⟩
    rcases hlarge with h | h | h <;> norm_num at h
  rw [if_neg h1, if_neg hneg, if_pos hlarge]

/-! ## Row-loop statistics -/

/-- Closed form of the row loop of `runQualityCheck`: the total counts
the rows with values, the valid count the processed rows whose overall
error is zero. -/
theorem processRows_eq (rows : List (List String)) (headers : List String) :
    Server.processRows rows headers =
      (rows.countP Server.rowHasValues,
       (rows.filter Server.rowHasValues).countP
         (fun row => (Server.classifyRow row headers).gesamtError == 0)) := by
  have key : ∀ (rs : List (List String)) (acc : Nat × Nat),
      rs.foldl
        (fun acc row =>
          if Server.rowHasValues row then
            (acc.1 + 1,
             acc.2 + if (Server.classifyRow row headers).gesamtError = 0 then 1 else 0)
          else acc) acc =
        (acc.1 + rs.countP Server.rowHasValues,
         acc.2 + (rs.filter Server.rowHasValues).countP
           (fun row => (Server.classifyRow row headers).gesamtError == 0)) := by
    intro rs
    induction rs with
    | nil => intro acc; simp
    | cons r t ih =>
      intro acc
      simp only [List.foldl_cons, List.countP_cons, List.filter_cons]
      by_cases hr : Server.rowHasValues r = true
      · rw [if_pos hr, ih]
        by_cases hg : (Server.classifyRow r headers).gesamtError = 0 <;>
          simp [hr, hg, List.countP_cons] <;> omega
      · rw [if_neg hr, ih]
        simp [hr]
  rw [Server.processRows, key]
  simp

/-! ## Claim theorems -/

/-- C1.  The Row Classifier's overall verdict is valid exactly when all
three rule evaluators are valid: in `runQualityCheck` the overall error
`Math.max(fert, pflicht, mass)` is `0` iff each of the three errors is
`0`, and in `QualityChecker.checkQuality` `isValid` is the boolean
conjunction of the three rule verdicts; no rule short-circuits another —
all three run and every non-null failure reason is collected in the
row's error list. -/
theorem overall_verdict_conjunction (row headers : List String) :
    ((Server.classifyRow row headers).gesamtError = 0 ↔
      (Server.classifyRow row headers).fertPruefhinweisError = 0 ∧
      (Server.classifyRow row headers).pflichtfelderError = 0 ∧
      (Server.classifyRow row headers).massError = 0)
    ∧ ((QC.evaluateRow row headers).isValid =
        ((QC.evaluateRow row headers).fertPruefhinweis.valid &&
         (QC.evaluateRow row headers).pflichtfelder.valid &&
         (QC.evaluateRow row headers).masswerte.valid))
    ∧ (∀ e, (QC.evaluateRow row headers).fertPruefhinweis.error = some e →
        e ∈ (QC.evaluateRow row headers).errors)
    ∧ (∀ e, (QC.evaluateRow row headers).pflichtfelder.error = some e →
        e ∈ (QC.evaluateRow row headers).errors)
    ∧ (∀ e, (QC.evaluateRow row headers).masswerte.error = some e →
        e ∈ (QC.evaluateRow row headers).errors) := by
  have herr : (QC.evaluateRow row headers).errors =
      [(QC.evaluateRow row headers).fertPruefhinweis.error,
       (QC.evaluateRow row headers).pflichtfelder.error,
       (QC.evaluateRow row headers).masswerte.error].filterMap id := rfl
  refine ⟨?_, rfl, ?_, ?_, ?_⟩
  · have hmax : (Server.classifyRow row headers).gesamtError =
        max (Server.classifyRow row headers).fertPruefhinweisError
          (max (Server.classifyRow row headers).pflichtfelderError
            (Server.classifyRow row headers).massError) := rfl
    rw [hmax, Nat.max_eq_zero_iff, Nat.max_eq_zero_iff]
  · intro e he
    rw [herr]
    exact List.mem_filterMap.mpr ⟨some e, by rw [← he]; simp, rfl⟩
  · intro e he
    rw [herr]
    exact List.mem_filterMap.mpr ⟨some e, by rw [← he]; simp, rfl⟩
  · intro e he
    rw [herr]
    exact List.mem_filterMap.mpr ⟨some e, by rw [← he]; simp, rfl⟩

/-- Witness for C1 at concrete inputs: the equivalence instantiated at
the empty row, and a collected failure reason for a row whose
`Fert./Prüfhinweis` cell has the wrong number of segments. -/
theorem overall_verdict_conjunction_witness :
    ((Server.classifyRow [] []).gesamtError = 0 ↔
      (Server.classifyRow [] []).fertPruefhinweisError = 0 ∧
      (Server.classifyRow [] []).pflichtfelderError = 0 ∧
      (Server.classifyRow [] []).massError = 0)
    ∧ "Nicht genau 5 Teile" ∈ (QC.evaluateRow ["bad"] ["Fert./Prüfhinweis"]).errors :=
  ⟨(overall_verdict_conjunction [] []).1,
   (overall_verdict_conjunction ["bad"] ["Fert./Prüfhinweis"]).2.2.1
     "Nicht genau 5 Teile" (by decide)⟩

/-- C2.  The structured-code rule `checkVollstaendig` accepts a value iff
splitting on `/` and trimming yields exactly five segments, each lying
in its positional allowed set; with the spec's examples. -/
theorem structured_code_accepts_iff :
    (∀ s : String, Server.checkVollstaendig s = 0 ↔
      ∃ t1 t2 t3 t4 t5, (jsSplit s '/').map jsTrim = [t1, t2, t3, t4, t5] ∧
        t1 ∈ pos1Values ∧ t2 ∈ pos2Values ∧ t3 ∈ pos3Values ∧
        t4 ∈ pos4Values ∧ t5 ∈ pos5Values)
    ∧ Server.checkVollstaendig "OHNE/N/N/N/N" = 0
    ∧ Server.checkVollstaendig "OHNE/N/N/N" = 1
    ∧ Server.checkVollstaendig "X/N/N/N/N" = 1
    ∧ Server.checkVollstaendig "" = 1 := by
  refine ⟨?_, by decide, by decide, by decide, by decide⟩
  intro s
  rw [Server.checkVollstaendig]
  by_cases hs : s = ""
  · subst hs
    rw [if_pos rfl]
    constructor
    · intro hcon
      exact absurd hcon one_ne_zero
    · rintro ⟨t1, t2, t3, t4, t5, hEq, -⟩
      have h1 : ((jsSplit "" '/').map jsTrim).length = 1 := by decide
      rw [hEq] at h1
      simp at h1
  · rw [if_neg hs]
    rcases hsp : (jsSplit s '/').map jsTrim with - | ⟨t1, - | ⟨t2, - | ⟨t3, - |
      ⟨t4, - | ⟨t5, - | ⟨t6, rest⟩⟩⟩⟩⟩⟩ <;> simp only []
    · simp
    · simp
    · simp
    · simp
    · simp
    · constructor
      · intro hval
        split at hval
        · next hc =>
          simp only [Bool.and_eq_true] at hc
          exact ⟨t1, t2, t3, t4, t5, rfl, List.elem_iff.mp hc.1.1.1.1,
            List.elem_iff.mp hc.1.1.1.2, List.elem_iff.mp hc.1.1.2,
            List.elem_iff.mp hc.1.2, List.elem_iff.mp hc.2⟩
        · exact absurd hval one_ne_zero
      · rintro ⟨a1, a2, a3, a4, a5, hEq, m1, m2, m3, m4, m5⟩
        simp only [List.cons.injEq, and_true] at hEq
        obtain ⟨rfl, rfl, rfl, rfl, rfl⟩ := hEq
        rw [if_pos]
        simp only [Bool.and_eq_true]
        exact ⟨⟨⟨⟨List.elem_iff.mpr m1, List.elem_iff.mpr m2⟩, List.elem_iff.mpr m3⟩,
          List.elem_iff.mpr m4⟩, List.elem_iff.mpr m5⟩
    · simp

/-- Witness for C2: the equivalence applied to a concrete valid code. -/
theorem structured_code_accepts_iff_witness :
    Server.checkVollstaendig "1/3.2/CL1/J/A1" = 0 :=
  (structured_code_accepts_iff.1 "1/3.2/CL1/J/A1").mpr
    ⟨"1", "3.2", "CL1", "J", "A1", by decide, by decide, by decide, by decide,
      by decide, by decide⟩

/-- C3.  An empty/absent structured-code field fails with the distinct
reason `'Fehlender Wert'`, which differs from the wrong-segment-count
and invalid-segment reasons; and for every input the verdict carries a
non-null reason iff it is invalid. -/
theorem missing_value_reason_distinct :
    QC.checkFertPruefhinweis "" =
      { valid := false, error := some "Fehlender Wert" }
    ∧ ("Fehlender Wert" : String) ≠ "Nicht genau 5 Teile"
    ∧ ("Fehlender Wert" : String) ≠ "Ungültige Werte in einem oder mehreren Teilen"
    ∧ ∀ s : String, ((QC.checkFertPruefhinweis s).error ≠ none ↔
        (QC.checkFertPruefhinweis s).valid = false) := by
  refine ⟨by decide, by decide, by decide, ?_⟩
  intro s
  rw [QC.checkFertPruefhinweis]
  by_cases hs : s = ""
  · rw [if_pos hs]
    simp
  · rw [if_neg hs]
    rcases hsp : (jsSplit s '/').map jsTrim with - | ⟨t1, - | ⟨t2, - | ⟨t3, - |
      ⟨t4, - | ⟨t5, - | ⟨t6, rest⟩⟩⟩⟩⟩⟩ <;> simp only []
    · simp
    · simp
    · simp
    · simp
    · simp
    · split <;> simp
    · simp

/-- Witness for C3: the reason/validity equivalence at a concrete
invalid input. -/
theorem missing_value_reason_distinct_witness :
    (QC.checkFertPruefhinweis "X/N/N/N/N").error ≠ none :=
  (missing_value_reason_distinct.2.2.2 "X/N/N/N/N").mpr (by decide)

/-- C4 (amended).  The mandatory-field rule is valid exactly when every
required position *below the header count* holds a non-whitespace value;
the failure reason lists every such missing position (not only the
first); a short row is read as empty at the missing positions (padding
with empty cells changes nothing, and the rule is a total function);
and the reason is null exactly on success. -/
theorem pflichtfelder_checked_positions (row headers : List String) :
    ((QC.checkPflichtfelder row headers).valid = true ↔
      ∀ i ∈ relevantIndices, i < headers.length → jsTrim (row.getD i "") ≠ "")
    ∧ (∀ i ∈ relevantIndices, i < headers.length → jsTrim (row.getD i "") = "" →
        QC.pflichtLabel headers i ∈ QC.missingFields row headers)
    ∧ (∀ k, QC.checkPflichtfelder (row ++ List.replicate k "") headers =
        QC.checkPflichtfelder row headers)
    ∧ ((QC.checkPflichtfelder row headers).error = none ↔
        (QC.checkPflichtfelder row headers).valid = true) := by
  refine ⟨?_, ?_, ?_, ?_⟩
  · have hvalid : (QC.checkPflichtfelder row headers).valid =
        (QC.missingFields row headers).isEmpty := rfl
    rw [hvalid, List.isEmpty_iff, QC.missingFields, List.filterMap_eq_nil_iff]
    constructor
    · intro hall i hi hlen htrim
      have hcon := hall i hi
      rw [if_pos hlen, if_pos htrim] at hcon
      exact absurd hcon (by simp)
    · intro hord i hi
      split_ifs with h1 h2
      · exact absurd h2 (hord i hi h1)
      · rfl
      · rfl
  · intro i hi hlen htrim
    rw [QC.missingFields]
    exact List.mem_filterMap.mpr ⟨i, hi, by rw [if_pos hlen, if_pos htrim]⟩
  · intro k
    have hmf : QC.missingFields (row ++ List.replicate k "") headers =
        QC.missingFields row headers := by
      rw [QC.missingFields, QC.missingFields]
      simp only [getD_append_replicate]
    rw [QC.checkPflichtfelder, QC.checkPflichtfelder, hmf]
  · have hvalid : (QC.checkPflichtfelder row headers).valid =
        (QC.missingFields row headers).isEmpty := rfl
    have herror : (QC.checkPflichtfelder row headers).error =
        (if (QC.missingFields row headers).isEmpty then none
         else some ("Fehlende Pflichtfelder: " ++
           String.intercalate ", " (QC.missingFields row headers))) := rfl
    rw [hvalid, herror]
    cases (QC.missingFields row headers).isEmpty <;> simp

/-- Counterexample to C4 as stated.  First, required positions at or
beyond the header count are not checked at all: with the single-header
row `["h"]` an entirely empty data row passes although the mandatory
position 1 (column B) is empty.  Second, a missing position is labelled
with the letter of the *preceding* column: with 23 headers and exactly
position 1 (column B) missing, the reason lists `"A (hB)"` and not
`"B (hB)"`. -/
theorem pflichtfelder_guard_and_label_cex :
    ((QC.checkPflichtfelder [] ["h"]).valid = true
      ∧ jsTrim (([] : List String).getD 1 "") = "")
    ∧ (QC.missingFields row23 headers23 = ["A (hB)"]
      ∧ "B (hB)" ∉ QC.missingFields row23 headers23
      ∧ jsTrim (row23.getD 1 "") = ""
      ∧ (QC.checkPflichtfelder row23 headers23).valid = false) := by decide

/-- Witness for C4 at concrete inputs: the missing position 1 of `row23`
is listed in the reason. -/
theorem pflichtfelder_checked_positions_witness :
    QC.pflichtLabel headers23 1 ∈ QC.missingFields row23 headers23 :=
  (pflichtfelder_checked_positions row23 headers23).2.1 1 (by decide) (by decide)
    (by decide)

/-- C5 (amended).  For a row whose three dimension cells all parse to
`0` (with `parseFloat(v) || 0`, so unparseable/absent is `0` and never
an error), the measurement rule is valid iff the material short text
contains a textual measurement — two 1–4 digit numbers separated by a
run of 1–3 characters drawn from *whitespace* (space, tab, CR, LF) or
`×xX*/` — and otherwise fails with the all-dimensions-zero reason;
rows with a nonzero parsed dimension are not subject to the textual
requirement: their validity depends only on the negative/upper-bound
dimension checks. -/
theorem masswerte_zero_dims_textual (row headers : List String) (li bi hi mi : Nat)
    (hL : QC.findColumnByHeader headers ["länge", "length"] = some li)
    (hB : QC.findColumnByHeader headers ["breite", "width"] = some bi)
    (hH : QC.findColumnByHeader headers ["höhe", "height"] = some hi)
    (hM : QC.findColumnByHeader headers
      ["materialkurztext", "material-kurztext", "material"] = some mi) :
    (jsParseFloatOr0 (row.getD li "") = 0 → jsParseFloatOr0 (row.getD bi "") = 0 →
      jsParseFloatOr0 (row.getD hi "") = 0 →
      (((QC.checkMasswerte row headers).valid = true ↔
          TextualMeasurement (row.getD mi ""))
       ∧ (¬ TextualMeasurement (row.getD mi "") →
           (QC.checkMasswerte row headers).error =
             some "Alle Maße sind 0, aber kein Textmaß gefunden")))
    ∧ (¬(jsParseFloatOr0 (row.getD li "") = 0 ∧ jsParseFloatOr0 (row.getD bi "") = 0 ∧
          jsParseFloatOr0 (row.getD hi "") = 0) →
        ((QC.checkMasswerte row headers).valid = true ↔
          ¬(jsParseFloatOr0 (row.getD li "") < 0 ∨ jsParseFloatOr0 (row.getD bi "") < 0 ∨
            jsParseFloatOr0 (row.getD hi "") < 0) ∧
          ¬(jsParseFloatOr0 (row.getD li "") > 10000 ∨
            jsParseFloatOr0 (row.getD bi "") > 10000 ∨
            jsParseFloatOr0 (row.getD hi "") > 10000))) := by
  have hck : QC.checkMasswerte row headers =
      QC.masswerteVerdict (jsParseFloatOr0 (row.getD li ""))
        (jsParseFloatOr0 (row.getD bi "")) (jsParseFloatOr0 (row.getD hi ""))
        (row.getD mi "") := by
    rw [QC.checkMasswerte, hL, hB, hH, hM]
  constructor
  · intro hl hb hh
    have hz := masswerteVerdict_allzero (jsParseFloatOr0 (row.getD li ""))
      (jsParseFloatOr0 (row.getD bi "")) (jsParseFloatOr0 (row.getD hi ""))
      (row.getD mi "") hl hb hh
    constructor
    · rw [hck, hz.1, hasTextMeasurement_iff]
    · intro hno
      have hfalse : hasTextMeasurement (row.getD mi "") = false := by
        rcases hb2 : hasTextMeasurement (row.getD mi "") with - | -
        · rfl
        · exact absurd ((hasTextMeasurement_iff _).mp hb2) hno
      rw [hck]
      exact hz.2 hfalse
  · intro hnz
    rw [hck]
    exact masswerteVerdict_nonzero _ _ _ _ hnz

/-- Counterexample to C5 as stated: with all dimensions zero and the
material text `"12\t34"`, the rule is *valid* — the tab is matched by
the regex's `\s` — although the text contains no textual measurement
with a separator drawn from the claim's set
`{space, ×, x, X, *, /}`. -/
theorem masswerte_tab_separator_cex :
    (QC.checkMasswerte ["0", "0", "0", "12\t34"] headersM).valid = true
    ∧ ¬ TextualMeasurementWith specSepChar ("12\t34".data)
    ∧ jsParseFloatOr0 "0" = 0 := by
  refine ⟨by decide, ?_, by decide⟩
  rw [← hasTextMeasurementAux_iff]
  decide

/-- Witness for C5 at concrete inputs: all-zero dimensions with the
textual measurement `"12x34"` give a valid verdict. -/
theorem masswerte_zero_dims_textual_witness :
    (QC.checkMasswerte ["0", "0", "0", "12x34"] headersM).valid = true :=
  (((masswerte_zero_dims_textual ["0", "0", "0", "12x34"] headersM 0 1 2 3
      (by decide) (by decide) (by decide) (by decide)).1
    (by decide) (by decide) (by decide)).1).mpr
    ⟨[], ['1', '2'], ['x'], ['3', '4'], [], by decide, by decide, by decide,
      by decide, by decide, by decide, by decide, by decide, by decide, by decide⟩

/-- C6 (amended).  Any negative parsed dimension yields the
negative-dimension failure, whatever the companion text holds; any
dimension above the fixed bound 10000 yields the
implausible-maximum failure *provided no dimension is negative*
(the negative check runs first and its reason takes precedence). -/
theorem masswerte_negative_and_bound (l b h : ℚ) (txt : String) :
    ((l < 0 ∨ b < 0 ∨ h < 0) →
      QC.masswerteVerdict l b h txt =
        { valid := false, error := some "Negative Maßwerte gefunden" })
    ∧ ((l > 10000 ∨ b > 10000 ∨ h > 10000) → ¬(l < 0 ∨ b < 0 ∨ h < 0) →
      QC.masswerteVerdict l b h txt =
        { valid := false, error := some "Extrem große Maßwerte (über 10000)" }) :=
  ⟨fun hneg => masswerteVerdict_neg l b h txt hneg,
   fun hlarge hneg => masswerteVerdict_large l b h txt hlarge hneg⟩

/-- Counterexample to C6 as stated: at parsed dimensions
`(-1, 20000, 5)` a dimension exceeds `10000`, yet the reported reason is
the negative-dimension one, not the implausible-maximum one. -/
theorem masswerte_negative_precedence_cex :
    (QC.checkMasswerte ["-1", "20000", "5", "12x34"] headersM).error =
      some "Negative Maßwerte gefunden"
    ∧ jsParseFloatOr0 "20000" > (10000 : ℚ)
    ∧ ("Negative Maßwerte gefunden" : String) ≠ "Extrem große Maßwerte (über 10000)" := by
  decide

/-- Witness for C6 at the spec's example dimensions: `(-1, 5, 5)` fails
as negative even with a textual measurement present, `(20000, 5, 5)`
fails as exceeding the plausible maximum. -/
theorem masswerte_negative_and_bound_witness :
    QC.masswerteVerdict (mkRat (-1) 1) (mkRat 5 1) (mkRat 5 1) "12x34" =
      { valid := false, error := some "Negative Maßwerte gefunden" }
    ∧ QC.masswerteVerdict (mkRat 20000 1) (mkRat 5 1) (mkRat 5 1) "" =
      { valid := false, error := some "Extrem große Maßwerte (über 10000)" } :=
  ⟨(masswerte_negative_and_bound (mkRat (-1) 1) (mkRat 5 1) (mkRat 5 1) "12x34").1
     (Or.inl (by decide)),
   (masswerte_negative_and_bound (mkRat 20000 1) (mkRat 5 1) (mkRat 5 1) "").2
     (Or.inl (by decide)) (by decide)⟩

/-- C7.  (Spec-modelled weight rule.)  When a weight field is configured
and present and parses to a value `≤ 0`, the measurement evaluation
carries the `'non-positive weight'` reason — for *every* combination of
dimensions and companion text, i.e. independently of the dimension
checks — and when a negative dimension applies as well, both reasons
are collected. -/
theorem weight_nonpositive_collected (l b h : ℚ) (txt : String) (w : String) (v : ℚ)
    (hw : toNumber w = some v) (hv : v ≤ 0) :
    "non-positive weight" ∈ measurementReasons l b h txt (some w)
    ∧ ((l < 0 ∨ b < 0 ∨ h < 0) →
        "Negative Maßwerte gefunden" ∈ measurementReasons l b h txt (some w)) := by
  have hcw : checkWeight (some w) =
      { valid := false, error := some "non-positive weight" } := by
    rw [checkWeight, hw]
    show (if v ≤ 0 then ({ valid := false, error := some "non-positive weight" } : QC.RuleVerdict)
          else { valid := true, error := none }) =
        { valid := false, error := some "non-positive weight" }
    rw [if_pos hv]
  constructor
  · rw [measurementReasons, hcw]
    exact List.mem_filterMap.mpr ⟨some "non-positive weight", by simp, rfl⟩
  · intro hneg
    rw [measurementReasons, masswerteVerdict_neg l b h txt hneg]
    exact List.mem_filterMap.mpr ⟨some "Negative Maßwerte gefunden", by simp, rfl⟩

/-- Witness for C7 at the spec's example weights `0` and `-3`: the
weight failure appears for passing dimensions and, together with the
negative-dimension failure, for failing ones. -/
theorem weight_nonpositive_collected_witness :
    "non-positive weight" ∈
      measurementReasons (mkRat 1 1) (mkRat 1 1) (mkRat 1 1) "" (some "0")
    ∧ "non-positive weight" ∈
      measurementReasons (mkRat (-1) 1) (mkRat 1 1) (mkRat 1 1) "" (some "-3")
    ∧ "Negative Maßwerte gefunden" ∈
      measurementReasons (mkRat (-1) 1) (mkRat 1 1) (mkRat 1 1) "" (some "-3") :=
  ⟨(weight_nonpositive_collected (mkRat 1 1) (mkRat 1 1) (mkRat 1 1) "" "0"
      (mkRat 0 1) (by decide) (by decide)).1,
   (weight_nonpositive_collected (mkRat (-1) 1) (mkRat 1 1) (mkRat 1 1) "" "-3"
      (mkRat (-3) 1) (by decide) (by decide)).1,
   (weight_nonpositive_collected (mkRat (-1) 1) (mkRat 1 1) (mkRat 1 1) "" "-3"
      (mkRat (-3) 1) (by decide) (by decide)).2 (Or.inl (by decide))⟩

/-- C8 (amended).  The `toNumber` helper of `utils.js` accepts both
decimal separators — `toNumber "1,5"` and `toNumber "1.5"` both give
`1.5` — because it first replaces the (first) `,` by `.`; but the rule
evaluators parse dimension cells with plain `parseFloat`, which stops at
the comma: there `"1,5"` parses to `1`, not `1.5`. -/
theorem comma_decimal_toNumber_only :
    toNumber "1,5" = toNumber "1.5"
    ∧ toNumber "1.5" = some (mkRat 3 2)
    ∧ (mkRat 3 2 : ℚ) = 3 / 2
    ∧ jsParseFloat "1,5" = some (mkRat 1 1)
    ∧ jsParseFloat "1,5" ≠ jsParseFloat "1.5" := by
  refine ⟨by decide, by decide, ?_, by decide, by decide⟩
  rw [Rat.mkRat_eq_div]
  norm_num

/-- Counterexample to C8 as stated: the parsing used by the measurement
rule (`parseFloat`) does *not* accept `,` — `"1,5"` parses to `1`
there — and the divergence is observable in the rule's verdict: a
length of `"0,5"` parses to `0` and the all-zero check fires, while
`"0.5"` parses to `0.5` and the row is valid. -/
theorem rules_parse_comma_cex :
    jsParseFloat "1,5" = some (mkRat 1 1)
    ∧ some (mkRat 1 1) ≠ some ((mkRat 3 2 : ℚ))
    ∧ (QC.checkMasswerte ["0,5", "0", "0", ""] headersM).valid = false
    ∧ (QC.checkMasswerte ["0.5", "0", "0", ""] headersM).valid = true := by
  decide

/-- C9 (amended).  The run statistics satisfy
`valid + invalid = total` with `total` the number of processed
(non-empty) rows and `valid` the number of those with overall error `0`;
summary finalisation of an empty dataset does not crash, but it does
perform the `0 / 0` division: every percentage is reported as `"NaN%"`,
not as `0`. -/
theorem stats_invariant_and_nan (rows : List (List String)) (headers : List String) :
    ((Server.runStats rows headers).valid : Int) + (Server.runStats rows headers).invalid
        = ((Server.runStats rows headers).total : Int)
    ∧ (Server.runStats rows headers).total = rows.countP Server.rowHasValues
    ∧ (Server.runStats rows headers).valid =
        (rows.filter Server.rowHasValues).countP
          (fun row => (Server.classifyRow row headers).gesamtError == 0)
    ∧ (Server.runStats rows headers).valid ≤ (Server.runStats rows headers).total
    ∧ Server.fehlerquote 0 0 = "NaN%" := by
  have hp := processRows_eq rows headers
  have htot : (Server.runStats rows headers).total = (Server.processRows rows headers).1 := rfl
  have hval : (Server.runStats rows headers).valid = (Server.processRows rows headers).2 := rfl
  have hinv : (Server.runStats rows headers).invalid =
      ((Server.processRows rows headers).1 : Int) -
        ((Server.processRows rows headers).2 : Int) := rfl
  refine ⟨?_, ?_, ?_, ?_, by decide⟩
  · rw [hval, hinv, htot]
    omega
  · rw [htot, hp]
  · rw [hval, hp]
  · rw [hval, htot, hp]
    have h1 : (rows.filter Server.rowHasValues).countP
        (fun row => (Server.classifyRow row headers).gesamtError == 0)
        ≤ (rows.filter Server.rowHasValues).length := List.countP_le_length _
    have h2 : rows.countP Server.rowHasValues = (rows.filter Server.rowHasValues).length :=
      List.countP_eq_length_filter _ _
    omega

/-- Counterexample to C9 as stated: for a zero total the summary cells
are produced by the `0 / 0` division — the rate is `NaN` (`none`), the
rendered cell is `"NaN%"`, which is not a zero percentage, and the whole
summary of an empty dataset carries `"NaN%"` in every rate cell. -/
theorem fehlerquote_zero_total_cex :
    Server.fehlerquoteVal 0 0 = none
    ∧ Server.fehlerquote 0 0 = "NaN%"
    ∧ Server.fehlerquote 0 0 ≠ "0.00%"
    ∧ Server.fehlerquote 0 0 ≠ "0%"
    ∧ Server.summaryData 0 0 [] =
      [["", "Fehleranzahl", "Fehlerquote"],
       ["Gesamt(0)", "0", "NaN%"],
       ["Vollständigkeit_Pflichtfeld", "0", "NaN%"],
       ["Vollständigkeit_Fert./Prüfhinweis", "0", "NaN%"],
       ["Gültigkeit_Maß", "0", "NaN%"]] := by
  decide

/-- Witness for C9 at a concrete dataset: one empty (skipped) row and
one non-empty invalid row. -/
theorem stats_invariant_and_nan_witness :
    ((Server.runStats [[], ["x"]] []).valid : Int) +
        (Server.runStats [[], ["x"]] []).invalid
      = ((Server.runStats [[], ["x"]] []).total : Int) :=
  (stats_invariant_and_nan [[], ["x"]] []).1

/-- C10.  The two column-addressing helpers are mutually inverse:
`getColumnIndex (getColumnLetter n) = n` for every `n` (in particular
every positive column number), and
`getColumnLetter (getColumnIndex s) = s` for every string of capital
letters `A`–`Z`. -/
theorem column_letter_index_roundtrip :
    (∀ n : Nat, getColumnIndex (getColumnLetter n) = n)
    ∧ (∀ s : String, (∀ c ∈ s.data, 65 ≤ c.toNat ∧ c.toNat ≤ 90) →
        getColumnLetter (getColumnIndex s) = s) :=
  ⟨getColumnIndex_getColumnLetter, getColumnLetter_getColumnIndex⟩

/-- Witness for C10 at concrete inputs. -/
theorem column_letter_index_roundtrip_witness :
    getColumnIndex (getColumnLetter 703) = 703
    ∧ getColumnLetter (getColumnIndex "AB") = "AB" :=
  ⟨column_letter_index_roundtrip.1 703,
   column_letter_index_roundtrip.2 "AB" (by decide)⟩
